import Mathlib

/-!
Verification of the `seren` scaffolding CLI (repository `josephdewdney/seren`).

The CLI lives in `src/apps/cli/src/index.ts`; an extended revision of the same
file (adding the `add auth` command) is embedded in
`src/apps/cli/src/index.test.ts`.  Every definition below is a direct
transcription of that TypeScript source:

* JSON manifests written with `JSON.stringify(obj, null, 2)` and read back with
  `JSON.parse` are modelled structurally by the `Json` type (object key order
  is insertion order, as in JavaScript).
* The filesystem is a list of `(path, content)` pairs; `writeFile` prepends
  (so a later write shadows an earlier one when read), matching the
  overwrite semantics of `fs.writeFile`.
* `process.exit(1)` paths are modelled by returning an error value together
  with the filesystem as it stood at that moment.
* External collaborators (`git init`, `npm install`, prompting on stdin) are
  out of scope per the specification; prompting is modelled by passing the
  user's reply string explicitly.
-/

/-- Structural model of the JSON values the CLI writes with
`JSON.stringify(_, null, 2)` and reads back with `JSON.parse`.  Field order is
JavaScript object insertion order. -/
inductive Json where
  | str : String → Json
  | bool : Bool → Json
  | arr : List Json → Json
  | obj : List (String × Json) → Json

/-- A file's content: plain text for templates, a `Json` value for manifests
and config files serialized with `JSON.stringify`. -/
inductive FileData where
  | text : String → FileData
  | json : Json → FileData

/-- The on-disk state visible to the CLI: an association list from relative
path to content.  The head entry shadows later ones, so prepending models an
overwriting `writeFile`. -/
abbrev FS := List (String × FileData)

/-- `readFile`: the current content at a path (first match wins). -/
def fsRead (fs : FS) (p : String) : Option FileData :=
  fs.lookup p

/-- `writeFile`: record new content for a path.  Prepending means a subsequent
`fsRead` sees the new content — the overwrite semantics of `fs.writeFile`. -/
def fsWrite (fs : FS) (p : String) (d : FileData) : FS :=
  (p, d) :: fs

/-- A sequence of `writeFile` calls, left to right. -/
def fsWriteAll (fs : FS) (us : List (String × FileData)) : FS :=
  us.foldl (fun a u => fsWrite a u.1 u.2) fs

/-- `existsSync(dir)` for a directory: some file lives strictly below it.
(Only states reachable by the CLI's own writes are modelled; empty directories
carry no content.) -/
def fsExistsDir (fs : FS) (dir : String) : Bool :=
  fs.any (fun e => (dir.data ++ ['/']).isPrefixOf e.1.data)

/-- `readdirSync(dir)`: the immediate child names of `dir`, derived from the
paths of the files below it. -/
def fsChildNames (fs : FS) (dir : String) : List String :=
  (fs.filterMap (fun e =>
    if (dir.data ++ ['/']).isPrefixOf e.1.data then
      some (String.mk ((e.1.data.drop (dir.data.length + 1)).takeWhile (fun c => c != '/')))
    else none)).dedup

/-- Object field access, as in `obj.field` on a parsed manifest. -/
def jsonGetField (j : Json) (k : String) : Option Json :=
  match j with
  | .obj fields => fields.lookup k
  | _ => none

/-- String-valued field access, as in `pkg.name`. -/
def jsonGetStr (j : Json) (k : String) : Option String :=
  match jsonGetField j k with
  | some (.str s) => some s
  | _ => none

/-- JavaScript truthiness of a JSON value (`""` and `false` are falsy). -/
def jsonTruthy (j : Json) : Bool :=
  match j with
  | .str s => s != ""
  | .bool b => b
  | .arr _ => true
  | .obj _ => true

/-- JavaScript `obj[k] = v` on an object's field list: replace the value in
place when the key exists, otherwise append the key at the end. -/
def setKey (l : List (String × Json)) (k : String) (v : Json) : List (String × Json) :=
  match l with
  | [] => [(k, v)]
  | (k1, v1) :: rest => if k1 = k then (k, v) :: rest else (k1, v1) :: setKey rest k v

/-- Replace the value of an existing top-level field of a JSON object
(`pkg.dependencies = …`); identity on non-objects. -/
def jsonSetField (j : Json) (k : String) (v : Json) : Json :=
  match j with
  | .obj fields => .obj (setKey fields k v)
  | _ => j

/-- Substring test on character lists — JavaScript `String.prototype.includes`. -/
def listIsSub (pat : List Char) : List Char → Bool
  | [] => pat.isEmpty
  | c :: rest => pat.isPrefixOf (c :: rest) || listIsSub pat rest

/-- JavaScript `s.includes(pat)`. -/
def strIncludes (s pat : String) : Bool :=
  listIsSub pat.data s.data

/-- Occurrence count of a pattern in a character list (no pattern in the CLI's
templates overlaps itself). -/
def countSub (pat : List Char) : List Char → Nat
  | [] => 0
  | c :: rest => (if pat.isPrefixOf (c :: rest) then 1 else 0) + countSub pat rest

/-- Whitespace skipped by JavaScript `parseInt`. -/
def isJsWhitespace (c : Char) : Bool :=
  (c == ' ') || (c == '\t') || (c == '\n') || (c == '\r') || (c == '\x0b') || (c == '\x0c')

/-- Decimal digit run to a number. -/
def digitsToNat (l : List Char) : Nat :=
  l.foldl (fun a c => a * 10 + (c.toNat - '0'.toNat)) 0

/-- Optional leading sign. -/
def splitSign : List Char → Int × List Char
  | '-' :: r => (-1, r)
  | '+' :: r => (1, r)
  | r => (1, r)

/-- JavaScript `parseInt(s, 10)`: skip whitespace, optional sign, then the
longest run of decimal digits; `none` models `NaN` (no digits found).
Trailing characters are ignored, as in JavaScript. -/
def jsParseInt (s : String) : Option Int :=
  match splitSign (s.data.dropWhile isJsWhitespace) with
  | (sign, rest) =>
    match rest.takeWhile (fun c => c.isDigit) with
    | [] => none
    | ds => some (sign * (digitsToNat ds : Int))

/-- `prompt(question, options)` from `index.ts` (lines 36–47): print the
options 1-based, read a reply, and return `options[parseInt(reply,10)-1]` when
that index is in range, otherwise `options[0]`.  The reply is passed in
explicitly; `none` can only arise from an empty option list (where the
original's `options[0]!` would be `undefined`). -/
def promptChoose (answer : String) (options : List String) : Option String :=
  match jsParseInt answer with
  | some i =>
    if 0 ≤ i - 1 ∧ i - 1 < (options.length : Int) then options[(i - 1).toNat]?
    else options[0]?
  | none => options[0]?

/-- Model of Node's POSIX `path.basename`: strip trailing slashes, then keep
everything after the last remaining slash. -/
def basename (p : String) : String :=
  String.mk ((((p.data.reverse).dropWhile (fun c => c == '/')).takeWhile (fun c => c != '/')).reverse)

/-- The error exits of the CLI (`process.exit(1)` after a diagnostic, or an
uncaught exception from `readFile`/`JSON.parse`/a field access). -/
inductive CliError where
  | dirNotEmpty
  | noDbPackage
  | noHonoApp
  | noRootManifest
  | badManifest
  | missingFile
deriving DecidableEq

/-- `scope` as every `add` command derives it: `JSON.parse(readFile("package.json")).name`. -/
def rootScope (fs : FS) : Option String :=
  match fsRead fs "package.json" with
  | some (.json j) => jsonGetStr j "name"
  | _ => none

/-! ### React app renderer — `addReactApp` (`index.ts` lines 121–228) -/

/-- `devDependencies` of a React app: the base entries, with the two Tailwind
entries appended when the flag is set (lines 128–140). -/
def reactDevDeps (scope : String) (tailwind : Bool) : List (String × Json) :=
  [("@" ++ scope ++ "/tsconfig", .str "*"),
   ("@types/react", .str "^19.2.5"),
   ("@types/react-dom", .str "^19.2.3"),
   ("@vitejs/plugin-react", .str "^5.1.1"),
   ("typescript", .str "~5.9.3"),
   ("vite", .str "^7.2.4")]
  ++ (if tailwind then [("tailwindcss", .str "^4.1.10"), ("@tailwindcss/vite", .str "^4.1.10")] else [])

/-- `apps/<name>/package.json` of a React app (lines 142–161). -/
def reactPackageJson (scope name : String) (tailwind : Bool) : Json :=
  .obj [("name", .str ("@" ++ scope ++ "/" ++ name)),
        ("private", .bool true),
        ("scripts", .obj [("dev", .str "vite"), ("build", .str "vite build")]),
        ("dependencies", .obj [("react", .str "^19.2.0"), ("react-dom", .str "^19.2.0")]),
        ("devDependencies", .obj (reactDevDeps scope tailwind))]

/-- `apps/<name>/index.html` (lines 163–178). -/
def reactIndexHtml (name : String) : String :=
  "<!doctype html>\n<html lang=\"en\">\n  <head>\n    <meta charset=\"UTF-8\" />\n    <meta name=\"viewport\" content=\"width=device-width, initial-scale=1.0\" />\n    <title>" ++ name ++ "</title>\n  </head>\n  <body>\n    <div id=\"root\"></div>\n    <script type=\"module\" src=\"/src/main.tsx\"></script>\n  </body>\n</html>\n"

/-- The part of `src/main.tsx` before the optional css import (lines 180–187). -/
def mainTsxPre : String :=
  "import \x7b createRoot \x7d from \"react-dom/client\";\nimport \x7b App \x7d from \"./App\";\n"

/-- The css import line added by the Tailwind flag. -/
def cssImportLine : String :=
  "import \"./index.css\";\n"

/-- The part of `src/main.tsx` after the optional css import. -/
def mainTsxPost : String :=
  "\ncreateRoot(document.getElementById(\"root\")!).render(<App />);\n"

/-- `apps/<name>/src/main.tsx`: the template's only hole is the optional
css import (lines 180–187). -/
def reactMainTsx (tailwind : Bool) : String :=
  mainTsxPre ++ (if tailwind then cssImportLine else "") ++ mainTsxPost

/-- `apps/<name>/src/index.css`, written only with the Tailwind flag (line 190). -/
def reactIndexCss : String :=
  "@import \"tailwindcss\";\n"

/-- `apps/<name>/src/App.tsx` (lines 193–199). -/
def reactAppTsx (name : String) : String :=
  "export function App() \x7b\n  return <h1>Hello from " ++ name ++ "</h1>;\n\x7d\n"

/-- `vite.config.ts` up to the optional Tailwind import (lines 201–210). -/
def viteHead : String :=
  "import \x7b defineConfig \x7d from \"vite\";\nimport react from \"@vitejs/plugin-react\";\n"

/-- The Tailwind plugin import line. -/
def viteImportTw : String :=
  "import tailwindcss from \"@tailwindcss/vite\";\n"

/-- `vite.config.ts` between the two Tailwind holes. -/
def viteMid : String :=
  "\nexport default defineConfig(\x7b\n  plugins: [react()"

/-- The Tailwind plugin registration inserted into the plugin list. -/
def vitePluginTw : String :=
  ", tailwindcss()"

/-- `vite.config.ts` after the plugin list. -/
def viteTail : String :=
  "],\n\x7d);\n"

/-- `apps/<name>/vite.config.ts`: the template's two holes are the
Tailwind import and the plugin registration (lines 201–210). -/
def reactViteConfig (tailwind : Bool) : String :=
  viteHead ++ (if tailwind then viteImportTw else "") ++ viteMid
    ++ (if tailwind then vitePluginTw else "") ++ viteTail

/-- `apps/<name>/tsconfig.json` of a React app (lines 212–225). -/
def reactTsconfigJson (scope : String) : Json :=
  .obj [("extends", .str ("@" ++ scope ++ "/tsconfig/react")),
        ("compilerOptions", .obj [("types", .arr [.str "vite/client"])]),
        ("include", .arr [.str "src", .str "vite.config.ts"])]

/-- All files `addReactApp` writes, in write order (lines 126–225). -/
def addReactAppFiles (scope name : String) (tailwind : Bool) : List (String × FileData) :=
  [("apps/" ++ name ++ "/package.json", .json (reactPackageJson scope name tailwind)),
   ("apps/" ++ name ++ "/index.html", .text (reactIndexHtml name)),
   ("apps/" ++ name ++ "/src/main.tsx", .text (reactMainTsx tailwind))]
  ++ (if tailwind then [("apps/" ++ name ++ "/src/index.css", .text reactIndexCss)] else [])
  ++ [("apps/" ++ name ++ "/src/App.tsx", .text (reactAppTsx name)),
      ("apps/" ++ name ++ "/vite.config.ts", .text (reactViteConfig tailwind)),
      ("apps/" ++ name ++ "/tsconfig.json", .json (reactTsconfigJson scope))]

/-- A React renderer that never knew about the Tailwind flag: the same
templates with every Tailwind hole removed.  Stated from the specification's
feature-flag additivity property, for comparison with `addReactAppFiles`. -/
def addReactAppFilesPlain (scope name : String) : List (String × FileData) :=
  [("apps/" ++ name ++ "/package.json",
    .json (.obj [("name", .str ("@" ++ scope ++ "/" ++ name)),
                 ("private", .bool true),
                 ("scripts", .obj [("dev", .str "vite"), ("build", .str "vite build")]),
                 ("dependencies", .obj [("react", .str "^19.2.0"), ("react-dom", .str "^19.2.0")]),
                 ("devDependencies", .obj
                   [("@" ++ scope ++ "/tsconfig", .str "*"),
                    ("@types/react", .str "^19.2.5"),
                    ("@types/react-dom", .str "^19.2.3"),
                    ("@vitejs/plugin-react", .str "^5.1.1"),
                    ("typescript", .str "~5.9.3"),
                    ("vite", .str "^7.2.4")])])),
   ("apps/" ++ name ++ "/index.html", .text (reactIndexHtml name)),
   ("apps/" ++ name ++ "/src/main.tsx",
    .text "import \x7b createRoot \x7d from \"react-dom/client\";\nimport \x7b App \x7d from \"./App\";\n\ncreateRoot(document.getElementById(\"root\")!).render(<App />);\n"),
   ("apps/" ++ name ++ "/src/App.tsx", .text (reactAppTsx name)),
   ("apps/" ++ name ++ "/vite.config.ts",
    .text "import \x7b defineConfig \x7d from \"vite\";\nimport react from \"@vitejs/plugin-react\";\n\nexport default defineConfig(\x7b\n  plugins: [react()],\n\x7d);\n"),
   ("apps/" ++ name ++ "/tsconfig.json", .json (reactTsconfigJson scope))]

/-! ### Hono app renderer — `addHonoApp` (`index.ts` lines 230–297) -/

/-- `devDependencies` of a Hono app (lines 253–258). -/
def honoDevDeps (scope : String) : List (String × Json) :=
  [("@" ++ scope ++ "/tsconfig", .str "*"),
   ("@types/node", .str "^22.10.2"),
   ("tsx", .str "^4.19.0"),
   ("typescript", .str "~5.9.3")]

/-- `apps/<name>/package.json` of a Hono app (lines 237–263). -/
def honoPackageJson (scope name : String) : Json :=
  .obj [("name", .str ("@" ++ scope ++ "/" ++ name)),
        ("private", .bool true),
        ("type", .str "module"),
        ("scripts", .obj [("dev", .str "tsx watch src/index.ts"),
                          ("build", .str "tsc"),
                          ("start", .str "node dist/index.js")]),
        ("dependencies", .obj [("hono", .str "^4.7.0"), ("@hono/node-server", .str "^1.14.0")]),
        ("devDependencies", .obj (honoDevDeps scope))]

/-- `apps/<name>/src/index.ts` of a Hono app (lines 265–278). -/
def honoIndexTs (name : String) : String :=
  "import \x7b serve \x7d from \"@hono/node-server\";\nimport \x7b Hono \x7d from \"hono\";\n\nconst app = new Hono();\n\napp.get(\"/\", (c) => c.text(\"Hello from " ++ name ++ "!\"));\n\nserve(\x7b fetch: app.fetch, port: 3000 \x7d, (info) => \x7b\n  console.log(`Server running at http://localhost:$\x7binfo.port\x7d`);\n\x7d);\n"

/-- `apps/<name>/tsconfig.json` of a Hono app (lines 280–294). -/
def honoTsconfigJson (scope : String) : Json :=
  .obj [("extends", .str ("@" ++ scope ++ "/tsconfig/node")),
        ("compilerOptions", .obj [("outDir", .str "dist"), ("noEmit", .bool false)]),
        ("include", .arr [.str "src"])]

/-- All files `addHonoApp` writes, in write order. -/
def addHonoAppFiles (scope name : String) : List (String × FileData) :=
  [("apps/" ++ name ++ "/package.json", .json (honoPackageJson scope name)),
   ("apps/" ++ name ++ "/src/index.ts", .text (honoIndexTs name)),
   ("apps/" ++ name ++ "/tsconfig.json", .json (honoTsconfigJson scope))]

/-! ### Generic package renderer — `addPackage` (`index.ts` lines 299–347) -/

/-- `devDependencies` of a generic package (lines 319–322). -/
def packageDevDeps (scope : String) : List (String × Json) :=
  [("@" ++ scope ++ "/tsconfig", .str "*"),
   ("typescript", .str "~5.9.3")]

/-- `packages/<name>/package.json` of a generic package (lines 310–327). -/
def packagePkgJson (scope name : String) : Json :=
  .obj [("name", .str ("@" ++ scope ++ "/" ++ name)),
        ("private", .bool true),
        ("exports", .obj [(".", .str "./src/index.ts")]),
        ("devDependencies", .obj (packageDevDeps scope))]

/-- `packages/<name>/tsconfig.json` of a generic package (lines 334–344). -/
def packageTsconfigJson (scope : String) : Json :=
  .obj [("extends", .str ("@" ++ scope ++ "/tsconfig/base")),
        ("include", .arr [.str "src"])]

/-- All files `addPackage` writes for a non-`db` name, in write order. -/
def addPackageFiles (scope name : String) : List (String × FileData) :=
  [("packages/" ++ name ++ "/package.json", .json (packagePkgJson scope name)),
   ("packages/" ++ name ++ "/src/index.ts", .text "export \x7b\x7d;\n"),
   ("packages/" ++ name ++ "/tsconfig.json", .json (packageTsconfigJson scope))]

/-! ### db package renderer — `addDbPackage` (`index.ts` lines 349–425) -/

/-- `devDependencies` of the db package (lines 365–367). -/
def dbDevDeps (scope : String) : List (String × Json) :=
  [("@" ++ scope ++ "/tsconfig", .str "*")]

/-- `packages/db/package.json` (lines 356–372). -/
def dbPkgJson (scope : String) : Json :=
  .obj [("name", .str ("@" ++ scope ++ "/db")),
        ("private", .bool true),
        ("exports", .obj [(".", .str "./src/index.ts")]),
        ("devDependencies", .obj (dbDevDeps scope))]

/-- `packages/db/src/index.ts` (lines 382–389). -/
def dbIndexTs : String :=
  "import \"dotenv/config\";\nimport \x7b drizzle \x7d from \"drizzle-orm/neon-http\";\n\nexport const db = drizzle(process.env[\"DATABASE_URL\"]!);\n"

/-- `packages/db/drizzle.config.ts` (lines 395–409). -/
def drizzleConfigTs : String :=
  "import \"dotenv/config\";\nimport \x7b defineConfig \x7d from \"drizzle-kit\";\n\nexport default defineConfig(\x7b\n  out: \"./drizzle\",\n  schema: \"./src/schema.ts\",\n  dialect: \"postgresql\",\n  dbCredentials: \x7b\n    url: process.env[\"DATABASE_URL\"]!,\n  \x7d,\n\x7d);\n"

/-- `packages/db/tsconfig.json` (lines 412–422). -/
def dbTsconfigJson (scope : String) : Json :=
  .obj [("extends", .str ("@" ++ scope ++ "/tsconfig/base")),
        ("include", .arr [.str "src", .str "drizzle.config.ts"])]

/-- All files `addDbPackage` writes, in write order (the `npm i` calls are
external-collaborator invocations and are out of scope). -/
def addDbPackageFiles (scope : String) : List (String × FileData) :=
  [("packages/db/package.json", .json (dbPkgJson scope)),
   ("packages/db/.env", .text "DATABASE_URL=\n"),
   ("packages/db/src/index.ts", .text dbIndexTs),
   ("packages/db/src/schema.ts", .text ""),
   ("packages/db/drizzle.config.ts", .text drizzleConfigTs),
   ("packages/db/tsconfig.json", .json (dbTsconfigJson scope))]

/-! ### Workspace initialisation — `init` (`index.ts` lines 427–554) -/

/-- Root `package.json` written by `init` (lines 441–452). -/
def rootPkgJson (pkgName : String) : Json :=
  .obj [("name", .str pkgName),
        ("private", .bool true),
        ("workspaces", .arr [.str "apps/*", .str "packages/*"])]

/-- `packages/tsconfig/package.json` written by `init` (lines 454–469). -/
def tsconfigPkgJson (pkgName : String) : Json :=
  .obj [("name", .str ("@" ++ pkgName ++ "/tsconfig")),
        ("private", .bool true),
        ("exports", .obj [("./base", .str "./base.json"),
                          ("./react", .str "./react.json"),
                          ("./node", .str "./node.json")])]

/-- `packages/tsconfig/base.json` (lines 471–500). -/
def baseJsonCfg : Json :=
  .obj [("compilerOptions", .obj
    [("allowUnreachableCode", .bool false),
     ("allowUnusedLabels", .bool false),
     ("exactOptionalPropertyTypes", .bool true),
     ("noFallthroughCasesInSwitch", .bool true),
     ("noImplicitOverride", .bool true),
     ("noImplicitReturns", .bool true),
     ("noUncheckedIndexedAccess", .bool true),
     ("noUnusedLocals", .bool true),
     ("noUnusedParameters", .bool true),
     ("strict", .bool true),
     ("target", .str "ES2022"),
     ("module", .str "ESNext"),
     ("moduleResolution", .str "bundler"),
     ("skipLibCheck", .bool true),
     ("noEmit", .bool true),
     ("verbatimModuleSyntax", .bool true),
     ("noUncheckedSideEffectImports", .bool true)])]

/-- `packages/tsconfig/react.json` (lines 502–515). -/
def reactJsonCfg : Json :=
  .obj [("extends", .str "./base.json"),
        ("compilerOptions", .obj [("lib", .arr [.str "ES2022", .str "DOM", .str "DOM.Iterable"]),
                                  ("jsx", .str "react-jsx")])]

/-- `packages/tsconfig/node.json` (lines 517–530). -/
def nodeJsonCfg : Json :=
  .obj [("extends", .str "./base.json"),
        ("compilerOptions", .obj [("lib", .arr [.str "ES2023"]),
                                  ("types", .arr [.str "node"])])]

/-- `.gitignore` written by `init` (lines 532–538). -/
def gitignoreText : String :=
  ".DS_Store\nnode_modules\ndist\n"

/-- The path piece every `init` write is placed under:
`isCurrentDir ? "" : name + "/"` (line 429). -/
def initPre (name : String) : String :=
  if name = "." then "" else name ++ "/"

/-- The workspace's package name:
`isCurrentDir ? basename(resolve(".")) : basename(name)` (line 430);
`cwdPath` stands for `resolve(".")`. -/
def initPkgName (cwdPath name : String) : String :=
  if name = "." then basename cwdPath else basename name

/-- The guard of line 433: the target directory exists and has at least one
entry (for `"."`, the current directory's own entries). -/
def targetNonempty (fs : FS) (name : String) : Bool :=
  if name = "." then !fs.isEmpty
  else fs.any (fun e => (name.data ++ ['/']).isPrefixOf e.1.data)

/-- All files `init` writes, in write order (lines 441–538; `git init` is an
external collaborator). -/
def initUnits (pre pkgName : String) : List (String × FileData) :=
  [(pre ++ "package.json", .json (rootPkgJson pkgName)),
   (pre ++ "packages/tsconfig/package.json", .json (tsconfigPkgJson pkgName)),
   (pre ++ "packages/tsconfig/base.json", .json baseJsonCfg),
   (pre ++ "packages/tsconfig/react.json", .json reactJsonCfg),
   (pre ++ "packages/tsconfig/node.json", .json nodeJsonCfg),
   (pre ++ ".gitignore", .text gitignoreText)]

/-- `init(name)` (lines 427–554): fail without writing when the target
directory is non-empty, otherwise write the workspace skeleton. -/
def initRun (fs : FS) (cwdPath name : String) : Except CliError Unit × FS :=
  if targetNonempty fs name then (.error .dirNotEmpty, fs)
  else (.ok (), fsWriteAll fs (initUnits (initPre name) (initPkgName cwdPath name)))

/-! ### Command wrappers for the `add` operations

Each `add` command first derives `scope` from the root manifest
(`const rootPkg = JSON.parse(await readFile("package.json", "utf-8"));
const scope = rootPkg.name;`) and then writes its files.  A missing or
unparsable root manifest throws, exiting non-zero before any write; an absent
`name` field interpolates as the string `"undefined"`, as in JavaScript. -/

/-- `addReactApp(name, tailwind)` as invoked by `seren add app <name> --framework react`. -/
def addReactAppCmd (fs : FS) (name : String) (tailwind : Bool) : Except CliError FS :=
  match fsRead fs "package.json" with
  | some (.json rootPkg) =>
    .ok (fsWriteAll fs (addReactAppFiles ((jsonGetStr rootPkg "name").getD "undefined") name tailwind))
  | _ => .error .noRootManifest

/-- `addHonoApp(name)` as invoked by `seren add app <name> --framework hono`. -/
def addHonoAppCmd (fs : FS) (name : String) : Except CliError FS :=
  match fsRead fs "package.json" with
  | some (.json rootPkg) =>
    .ok (fsWriteAll fs (addHonoAppFiles ((jsonGetStr rootPkg "name").getD "undefined") name))
  | _ => .error .noRootManifest

/-- `addPackage(name)` as invoked by `seren add package <name>`; the name
`db` selects `addDbPackage` (lines 299–303). -/
def addPackageCmd (fs : FS) (name : String) : Except CliError FS :=
  if name = "db" then
    match fsRead fs "package.json" with
    | some (.json rootPkg) =>
      .ok (fsWriteAll fs (addDbPackageFiles ((jsonGetStr rootPkg "name").getD "undefined")))
    | _ => .error .noRootManifest
  else
    match fsRead fs "package.json" with
    | some (.json rootPkg) =>
      .ok (fsWriteAll fs (addPackageFiles ((jsonGetStr rootPkg "name").getD "undefined") name))
    | _ => .error .noRootManifest

/-! ### `add auth` — `addAuth` from the extended CLI embedded in
`src/apps/cli/src/index.test.ts` (lines 524–706 of that file) -/

/-- The import lines `addAuth` places in front of the existing schema content. -/
def authSchemaImports : String :=
  "import \x7b pgTable, text, boolean, timestamp \x7d from \"drizzle-orm/pg-core\";\nimport \x7b timestamps \x7d from \"./columns\";\n"

/-- The four table definitions `addAuth` appends after the existing schema
content (test file lines 565–606). -/
def authSchemaTables : String :=
  "\nexport const user = pgTable(\"user\", \x7b\n  id: text(\"id\").primaryKey(),\n  name: text(\"name\").notNull(),\n  email: text(\"email\").notNull().unique(),\n  emailVerified: boolean(\"email_verified\").notNull().default(false),\n  image: text(\"image\"),\n  ...timestamps,\n\x7d);\n\nexport const session = pgTable(\"session\", \x7b\n  id: text(\"id\").primaryKey(),\n  userId: text(\"user_id\").notNull().references(() => user.id),\n  token: text(\"token\").notNull().unique(),\n  expiresAt: timestamp(\"expires_at\", \x7b withTimezone: true \x7d).notNull(),\n  ipAddress: text(\"ip_address\"),\n  userAgent: text(\"user_agent\"),\n  ...timestamps,\n\x7d);\n\nexport const account = pgTable(\"account\", \x7b\n  id: text(\"id\").primaryKey(),\n  userId: text(\"user_id\").notNull().references(() => user.id),\n  accountId: text(\"account_id\").notNull(),\n  providerId: text(\"provider_id\").notNull(),\n  accessToken: text(\"access_token\"),\n  refreshToken: text(\"refresh_token\"),\n  accessTokenExpiresAt: timestamp(\"access_token_expires_at\", \x7b withTimezone: true \x7d),\n  refreshTokenExpiresAt: timestamp(\"refresh_token_expires_at\", \x7b withTimezone: true \x7d),\n  scope: text(\"scope\"),\n  idToken: text(\"id_token\"),\n  password: text(\"password\"),\n  ...timestamps,\n\x7d);\n\nexport const verification = pgTable(\"verification\", \x7b\n  id: text(\"id\").primaryKey(),\n  identifier: text(\"identifier\").notNull(),\n  value: text(\"value\").notNull(),\n  expiresAt: timestamp(\"expires_at\", \x7b withTimezone: true \x7d).notNull(),\n  ...timestamps,\n\x7d);\n"

/-- The new content of `packages/db/src/schema.ts`: the template of test file
lines 560–607 — imports, then the prior content, then the table block. -/
def authSchemaContent (existingSchema : String) : String :=
  authSchemaImports ++ existingSchema ++ authSchemaTables

/-- `packages/db/src/auth.ts` (test file lines 610–627). -/
def authTsContent : String :=
  "import \x7b betterAuth \x7d from \"better-auth\";\nimport \x7b drizzleAdapter \x7d from \"better-auth/adapters/drizzle\";\nimport \x7b db \x7d from \"./index\";\nimport * as schema from \"./schema\";\n\nexport const auth = betterAuth(\x7b\n  database: drizzleAdapter(db, \x7b\n    provider: \"pg\",\n    schema,\n  \x7d),\n  emailAndPassword: \x7b\n    enabled: true,\n  \x7d,\n\x7d);\n"

/-- The marker `addAuth` looks for before appending to `.env` (line 639). -/
def authEnvMarker : String :=
  "BETTER_AUTH_SECRET"

/-- The block appended to `packages/db/.env` when the marker is absent (line 640). -/
def authEnvBlock : String :=
  "BETTER_AUTH_SECRET=\nBETTER_AUTH_URL=http://localhost:3000\n"

/-- The read-check-append step on `.env` content (lines 638–641): append the
block only when the marker string is not already present. -/
def envStep (c : String) : String :=
  if listIsSub authEnvMarker.data c.data then c else c ++ authEnvBlock

/-- The rewritten Hono entry point `apps/<app>/src/index.ts` (test file lines
644–690). -/
def authHonoIndex (scope appName : String) : String :=
  "import \x7b serve \x7d from \"@hono/node-server\";\nimport \x7b Hono \x7d from \"hono\";\nimport \x7b cors \x7d from \"hono/cors\";\nimport \x7b auth \x7d from \"@" ++ scope ++ "/db/auth\";\n\nconst app = new Hono<\x7b\n  Variables: \x7b\n    user: typeof auth.$Infer.Session.user | null;\n    session: typeof auth.$Infer.Session.session | null;\n  \x7d;\n\x7d>();\n\napp.use(\n  \"/api/auth/*\",\n  cors(\x7b\n    origin: \"http://localhost:5173\",\n    allowHeaders: [\"Content-Type\", \"Authorization\"],\n    allowMethods: [\"POST\", \"GET\", \"OPTIONS\"],\n    exposeHeaders: [\"Content-Length\"],\n    maxAge: 600,\n    credentials: true,\n  \x7d)\n);\n\napp.use(\"*\", async (c, next) => \x7b\n  const session = await auth.api.getSession(\x7b headers: c.req.raw.headers \x7d);\n  if (!session) \x7b\n    c.set(\"user\", null);\n    c.set(\"session\", null);\n    return next();\n  \x7d\n  c.set(\"user\", session.user);\n  c.set(\"session\", session.session);\n  return next();\n\x7d);\n\napp.on([\"POST\", \"GET\"], \"/api/auth/*\", (c) => auth.handler(c.req.raw));\n\napp.get(\"/\", (c) => c.text(\"Hello from " ++ appName ++ "!\"));\n\nserve(\x7b fetch: app.fetch, port: 3000 \x7d, (info) => \x7b\n  console.log(`Server running at http://localhost:$\x7binfo.port\x7d`);\n\x7d);\n"

/-- `pkg.dependencies?.hono` is truthy for the manifest at `apps/<a>/package.json`
(test file lines 534–542). -/
def appHasHono (fs : FS) (a : String) : Bool :=
  match fsRead fs ("apps/" ++ a ++ "/package.json") with
  | some (.json j) =>
    match jsonGetField j "dependencies" with
    | some deps =>
      match jsonGetField deps "hono" with
      | some v => jsonTruthy v
      | none => false
    | none => false
  | _ => false

/-- The Hono apps found by listing `apps/` and filtering on a truthy `hono`
dependency (test file lines 531–542). -/
def honoAppsOf (fs : FS) : List String :=
  (fsChildNames fs "apps").filter (appHasHono fs)

/-- App selection (test file lines 549–552): the first Hono app, or the
prompt's choice when more than one candidate exists; `none` when there is no
candidate. -/
def addAuthSelect (fs : FS) (ans : String) : Option String :=
  match honoAppsOf fs with
  | [] => none
  | a :: [] => some a
  | a :: b :: r => some ((promptChoose ans (a :: b :: r)).getD "")

/-- The patched `packages/db/package.json`:
`dbPkg.dependencies["better-auth"] = "^1"; dbPkg.exports["./auth"] = "./src/auth.ts"`
(test file lines 630–634). -/
def authDbPkgPatch (dbPkg : Json) (dDeps dExports : List (String × Json)) : Json :=
  jsonSetField (jsonSetField dbPkg "dependencies" (.obj (setKey dDeps "better-auth" (.str "^1"))))
    "exports" (.obj (setKey dExports "./auth" (.str "./src/auth.ts")))

/-- The patched Hono app manifest:
`appPkg.dependencies["@" + scope + "/db"] = "*"` (test file lines 693–696). -/
def authAppPkgPatch (scope : String) (appPkg : Json) (aDeps : List (String × Json)) : Json :=
  jsonSetField appPkg "dependencies" (.obj (setKey aDeps ("@" ++ scope ++ "/db") (.str "*")))

/-- The tail of `addAuth` once `scope`, the selected app and the `.env`
content are known (test file lines 636–706): conditionally append to `.env`,
rewrite the selected app's entry point, and patch the app manifest.  `fs3` is
the filesystem after the schema, `auth.ts` and db-manifest writes. -/
def addAuthFinish (fs3 : FS) (appName scope envContent : String) : Except CliError Unit × FS :=
  let fs4 := match listIsSub authEnvMarker.data envContent.data with
    | true => fs3
    | false => fsWrite fs3 "packages/db/.env" (.text (envContent ++ authEnvBlock))
  let fs5 := fsWrite fs4 ("apps/" ++ appName ++ "/src/index.ts")
    (.text (authHonoIndex scope appName))
  match fsRead fs5 ("apps/" ++ appName ++ "/package.json") with
  | some (.json appPkg) =>
    match jsonGetField appPkg "dependencies" with
    | some (.obj aDeps) =>
      (.ok (), fsWrite fs5 ("apps/" ++ appName ++ "/package.json")
        (.json (authAppPkgPatch scope appPkg aDeps)))
    | _ => (.error .badManifest, fs5)
  | _ => (.error .badManifest, fs5)

/-- `addAuth()` (test file lines 524–706), in source order: check
`packages/db` exists, find the Hono apps (failing when there are none),
select one, derive `scope` from the root manifest, rewrite the schema file,
create `auth.ts`, patch the db manifest, then finish with the `.env` append
and the app rewiring.  Each failure exit carries the filesystem as already
written at that point (a mid-run exception rolls nothing back). -/
def addAuthRun (fs : FS) (ans : String) : Except CliError Unit × FS :=
  match fsExistsDir fs "packages/db" with
  | false => (.error .noDbPackage, fs)
  | true =>
    match addAuthSelect fs ans with
    | none => (.error .noHonoApp, fs)
    | some appName =>
      match fsRead fs "package.json" with
      | some (.json rootPkg) =>
        let scope := (jsonGetStr rootPkg "name").getD "undefined"
        match fsRead fs "packages/db/src/schema.ts" with
        | some (.text existingSchema) =>
          let fs2 := fsWrite (fsWrite fs "packages/db/src/schema.ts"
              (.text (authSchemaContent existingSchema)))
            "packages/db/src/auth.ts" (.text authTsContent)
          match fsRead fs2 "packages/db/package.json" with
          | some (.json dbPkg) =>
            match jsonGetField dbPkg "dependencies", jsonGetField dbPkg "exports" with
            | some (.obj dDeps), some (.obj dExports) =>
              let fs3 := fsWrite fs2 "packages/db/package.json"
                (.json (authDbPkgPatch dbPkg dDeps dExports))
              match fsRead fs3 "packages/db/.env" with
              | some (.text envContent) => addAuthFinish fs3 appName scope envContent
              | _ => (.error .missingFile, fs3)
            | _, _ => (.error .badManifest, fs2)
          | _ => (.error .badManifest, fs2)
        | _ => (.error .missingFile, fs)
      | _ => (.error .noRootManifest, fs)

/-- The read results a successful `addAuth` run rests on, all stated against
the filesystem as it stood when the command began: the db package is present,
a Hono app gets selected, and every file and manifest field the command reads
is there with the expected shape. -/
def authReads (fs : FS) (ans appName : String) (rootPkg : Json) (prior : String)
    (dbPkg : Json) (dDeps dExports : List (String × Json)) (env : String)
    (appPkg : Json) (aDeps : List (String × Json)) : Prop :=
  fsExistsDir fs "packages/db" = true ∧
  addAuthSelect fs ans = some appName ∧
  fsRead fs "package.json" = some (.json rootPkg) ∧
  fsRead fs "packages/db/src/schema.ts" = some (.text prior) ∧
  fsRead fs "packages/db/package.json" = some (.json dbPkg) ∧
  jsonGetField dbPkg "dependencies" = some (.obj dDeps) ∧
  jsonGetField dbPkg "exports" = some (.obj dExports) ∧
  fsRead fs "packages/db/.env" = some (.text env) ∧
  fsRead fs ("apps/" ++ appName ++ "/package.json") = some (.json appPkg) ∧
  jsonGetField appPkg "dependencies" = some (.obj aDeps)

/-- The filesystem after the first three `addAuth` writes (schema rewrite,
`auth.ts`, patched db manifest). -/
def authFs3 (fs : FS) (prior : String) (dbPkg : Json)
    (dDeps dExports : List (String × Json)) : FS :=
  fsWrite (fsWrite (fsWrite fs "packages/db/src/schema.ts"
      (.text (authSchemaContent prior)))
    "packages/db/src/auth.ts" (.text authTsContent))
    "packages/db/package.json" (.json (authDbPkgPatch dbPkg dDeps dExports))

/-- The filesystem a successful `addAuth` run leaves behind (established
against `addAuthRun` by `addAuthRun_spec`). -/
def authFinalFS (fs : FS) (appName scope prior : String) (dbPkg : Json)
    (dDeps dExports : List (String × Json)) (env : String)
    (appPkg : Json) (aDeps : List (String × Json)) : FS :=
  fsWrite (fsWrite
    (match listIsSub authEnvMarker.data env.data with
     | true => authFs3 fs prior dbPkg dDeps dExports
     | false => fsWrite (authFs3 fs prior dbPkg dDeps dExports)
         "packages/db/.env" (.text (env ++ authEnvBlock)))
    ("apps/" ++ appName ++ "/src/index.ts") (.text (authHonoIndex scope appName)))
    ("apps/" ++ appName ++ "/package.json")
    (.json (authAppPkgPatch scope appPkg aDeps))

/-- A workspace whose target path for a React app already holds different
content. -/
def fsConflict : FS :=
  [("package.json", .json (rootPkgJson "proj")),
   ("apps/web/index.html", .text "OLD")]

/-- Dependencies of the fixture db package (as `addDbPackage` of the extended
CLI installs them). -/
def dbDepsFix : List (String × Json) :=
  [("drizzle-orm", .str "^0.38"), ("@neondatabase/serverless", .str "^0.10"),
   ("dotenv", .str "^16")]

/-- Exports of the fixture db package. -/
def dbExportsFix : List (String × Json) :=
  [(".", .str "./src/index.ts")]

/-- The `dependencies` object of a rendered Hono app manifest. -/
def honoDepsFix : List (String × Json) :=
  [("hono", .str "^4.7.0"), ("@hono/node-server", .str "^1.14.0")]

/-- The fixture db package manifest (shape produced by the extended CLI's
`addDbPackage`, which records its installed dependencies). -/
def dbPkgAuthFixture : Json :=
  .obj [("name", .str "@proj/db"),
        ("private", .bool true),
        ("exports", .obj dbExportsFix),
        ("dependencies", .obj dbDepsFix),
        ("devDependencies", .obj [("@proj/tsconfig", .str "*"),
                                  ("drizzle-kit", .str "^0.30"), ("tsx", .str "^4")])]

/-- A workspace `proj` holding a db package and one Hono app `api` — the
state `add auth` expects. -/
def fsAuthFixture : FS :=
  [("package.json", .json (rootPkgJson "proj")),
   ("packages/db/package.json", .json dbPkgAuthFixture),
   ("packages/db/src/schema.ts", .text ""),
   ("packages/db/.env", .text "DATABASE_URL=\n"),
   ("apps/api/package.json", .json (honoPackageJson "proj" "api")),
   ("apps/api/src/index.ts", .text (honoIndexTs "api"))]

/-! ### Basic lemmas on the embedding -/

/-- Two strings with the same character data are equal. -/
theorem strDataInj {a b : String} (h : a.data = b.data) : a = b := by
  cases a with
  | mk da =>
    cases b with
    | mk db => cases h; rfl

/-- Appending distinct suffixes to the same string yields distinct strings. -/
theorem appendNeLeft (a : String) {b c : String} (h : b ≠ c) : a ++ b ≠ a ++ c := by
  intro he
  have hd := congrArg String.data he
  rw [String.data_append, String.data_append] at hd
  exact h (strDataInj (List.append_cancel_left hd))

/-- Strings whose data starts with different characters are distinct. -/
theorem ne_of_head_ne {a b : String} {c d : Char} {ta tb : List Char}
    (ha : a.data = c :: ta) (hb : b.data = d :: tb) (hcd : c ≠ d) : a ≠ b := by
  intro h
  rw [h, hb] at ha
  injection ha with h1 _
  exact hcd h1.symm

/-- Reading a path straight after writing it yields the written content. -/
theorem fsRead_write_self (fs : FS) (p : String) (d : FileData) :
    fsRead (fsWrite fs p d) p = some d := by
  simp [fsRead, fsWrite, List.lookup]

/-- Writing one path does not change what another path reads as. -/
theorem fsRead_write_ne (fs : FS) {p q : String} (d : FileData) (h : p ≠ q) :
    fsRead (fsWrite fs q d) p = fsRead fs p := by
  simp [fsRead, fsWrite, List.lookup, beq_eq_false_iff_ne.mpr h]

/-- `List.lookup` over an append searches the left list first. -/
theorem lookupAppend {β : Type} (l1 l2 : List (String × β)) (k : String) :
    (l1 ++ l2).lookup k = (l1.lookup k).elim (l2.lookup k) some := by
  induction l1 with
  | nil => rfl
  | cons e t ih =>
    obtain ⟨k1, v1⟩ := e
    by_cases hk : k = k1
    · simp [List.lookup, hk]
    · simp [List.lookup, beq_eq_false_iff_ne.mpr hk, ih]

/-- Reading after a batch of writes: the last write to the path wins, and a
path no unit mentions keeps its previous content. -/
theorem fsRead_writeAll (us : List (String × FileData)) (fs : FS) (p : String) :
    fsRead (fsWriteAll fs us) p = (us.reverse.lookup p).elim (fsRead fs p) some := by
  induction us generalizing fs with
  | nil => rfl
  | cons u t ih =>
    obtain ⟨q, d⟩ := u
    show fsRead (fsWriteAll (fsWrite fs q d) t) p = _
    rw [ih, List.reverse_cons, lookupAppend]
    cases ht : t.reverse.lookup p with
    | some v => rfl
    | none =>
      by_cases hpq : p = q
      · subst hpq; simp [List.lookup, fsRead_write_self]
      · simp [List.lookup, beq_eq_false_iff_ne.mpr hpq, fsRead_write_ne fs d hpq]

/-- After `obj[k] = v`, looking up `k` yields `v`. -/
theorem lookup_setKey (l : List (String × Json)) (k : String) (v : Json) :
    (setKey l k v).lookup k = some v := by
  induction l with
  | nil => simp [setKey, List.lookup]
  | cons e t ih =>
    obtain ⟨k1, v1⟩ := e
    by_cases hk : k1 = k
    · simp [setKey, hk, List.lookup]
    · simp [setKey, hk, List.lookup, beq_eq_false_iff_ne.mpr (Ne.symm hk), ih]

/-- Setting a field present on a JSON object makes that field read back as the
new value. -/
theorem jsonGetField_setField {j : Json} {k : String} {w : Json} (v : Json)
    (h : jsonGetField j k = some w) :
    jsonGetField (jsonSetField j k v) k = some v := by
  cases j with
  | str s => simp [jsonGetField] at h
  | bool b => simp [jsonGetField] at h
  | arr l => simp [jsonGetField] at h
  | obj fields => simp [jsonGetField, jsonSetField, lookup_setKey]

/-- A substring of a list is a substring of any left-extension of it. -/
theorem listIsSub_append_right (pat l2 : List Char) (l1 : List Char)
    (h : listIsSub pat l2 = true) : listIsSub pat (l1 ++ l2) = true := by
  induction l1 with
  | nil => exact h
  | cons c t ih =>
    show (pat.isPrefixOf (c :: (t ++ l2)) || listIsSub pat (t ++ l2)) = true
    rw [ih]
    exact Bool.or_true _

/-- Inverting a successful `rootScope` read. -/
theorem rootScope_inv {fs : FS} {s : String} (h : rootScope fs = some s) :
    ∃ j, fsRead fs "package.json" = some (.json j) ∧ jsonGetStr j "name" = some s ∧
      (jsonGetStr j "name").getD "undefined" = s := by
  unfold rootScope at h
  split at h
  next j heq => exact ⟨j, heq, h, by rw [h]; rfl⟩
  next => cases h

/-! ### The successful `add auth` run -/

/-- On a filesystem satisfying `authReads`, `addAuth` succeeds and performs
exactly the six writes of `authFinalFS`, with the scope taken from the root
manifest on disk. -/
theorem addAuthRun_spec {fs : FS} {ans appName : String} {rootPkg : Json} {prior : String}
    {dbPkg : Json} {dDeps dExports : List (String × Json)} {env : String}
    {appPkg : Json} {aDeps : List (String × Json)}
    (h : authReads fs ans appName rootPkg prior dbPkg dDeps dExports env appPkg aDeps) :
    addAuthRun fs ans =
      (.ok (), authFinalFS fs appName ((jsonGetStr rootPkg "name").getD "undefined")
        prior dbPkg dDeps dExports env appPkg aDeps) := by
  obtain ⟨h1, h2, h3, h4, h5, h6, h7, h8, h9, h10⟩ := h
  have nAppSchema : ("apps/" ++ appName ++ "/package.json") ≠ "packages/db/src/schema.ts" :=
    ne_of_head_ne rfl rfl (by decide)
  have nAppAuth : ("apps/" ++ appName ++ "/package.json") ≠ "packages/db/src/auth.ts" :=
    ne_of_head_ne rfl rfl (by decide)
  have nAppDbPkg : ("apps/" ++ appName ++ "/package.json") ≠ "packages/db/package.json" :=
    ne_of_head_ne rfl rfl (by decide)
  have nAppEnv : ("apps/" ++ appName ++ "/package.json") ≠ "packages/db/.env" :=
    ne_of_head_ne rfl rfl (by decide)
  have nAppIdx : ("apps/" ++ appName ++ "/package.json") ≠ ("apps/" ++ appName ++ "/src/index.ts") :=
    appendNeLeft _ (by decide)
  have e5 : fsRead (fsWrite (fsWrite fs "packages/db/src/schema.ts"
      (.text (authSchemaContent prior))) "packages/db/src/auth.ts" (.text authTsContent))
      "packages/db/package.json" = some (.json dbPkg) := by
    rw [fsRead_write_ne _ _ (by decide), fsRead_write_ne _ _ (by decide), h5]
  have e8 : fsRead (fsWrite (fsWrite (fsWrite fs "packages/db/src/schema.ts"
      (.text (authSchemaContent prior))) "packages/db/src/auth.ts" (.text authTsContent))
      "packages/db/package.json" (.json (authDbPkgPatch dbPkg dDeps dExports)))
      "packages/db/.env" = some (.text env) := by
    rw [fsRead_write_ne _ _ (by decide), fsRead_write_ne _ _ (by decide),
      fsRead_write_ne _ _ (by decide), h8]
  have e9a : fsRead (fsWrite (fsWrite (fsWrite fs "packages/db/src/schema.ts"
      (.text (authSchemaContent prior))) "packages/db/src/auth.ts" (.text authTsContent))
      "packages/db/package.json" (.json (authDbPkgPatch dbPkg dDeps dExports)))
      ("apps/" ++ appName ++ "/package.json") = some (.json appPkg) := by
    rw [fsRead_write_ne _ _ nAppDbPkg, fsRead_write_ne _ _ nAppAuth,
      fsRead_write_ne _ _ nAppSchema, h9]
  unfold addAuthRun
  simp only [h1, h2, h3, h4, e5, h6, h7, e8]
  unfold addAuthFinish authFinalFS authFs3
  cases hm : listIsSub authEnvMarker.data env.data with
  | true =>
    have eT : fsRead (fsWrite (fsWrite (fsWrite (fsWrite fs "packages/db/src/schema.ts"
        (.text (authSchemaContent prior))) "packages/db/src/auth.ts" (.text authTsContent))
        "packages/db/package.json" (.json (authDbPkgPatch dbPkg dDeps dExports)))
        ("apps/" ++ appName ++ "/src/index.ts")
        (.text (authHonoIndex ((jsonGetStr rootPkg "name").getD "undefined") appName)))
        ("apps/" ++ appName ++ "/package.json") = some (.json appPkg) := by
      rw [fsRead_write_ne _ _ nAppIdx, e9a]
    simp only [eT, h10]
  | false =>
    have eF : fsRead (fsWrite (fsWrite (fsWrite (fsWrite (fsWrite fs "packages/db/src/schema.ts"
        (.text (authSchemaContent prior))) "packages/db/src/auth.ts" (.text authTsContent))
        "packages/db/package.json" (.json (authDbPkgPatch dbPkg dDeps dExports)))
        "packages/db/.env" (.text (env ++ authEnvBlock)))
        ("apps/" ++ appName ++ "/src/index.ts")
        (.text (authHonoIndex ((jsonGetStr rootPkg "name").getD "undefined") appName)))
        ("apps/" ++ appName ++ "/package.json") = some (.json appPkg) := by
      rw [fsRead_write_ne _ _ nAppIdx, fsRead_write_ne _ _ nAppEnv, e9a]
    simp only [eF, h10]

/-- A successful `addAuth` run reports success. -/
theorem authRun_ok {fs : FS} {ans appName : String} {rootPkg : Json} {prior : String}
    {dbPkg : Json} {dDeps dExports : List (String × Json)} {env : String}
    {appPkg : Json} {aDeps : List (String × Json)}
    (h : authReads fs ans appName rootPkg prior dbPkg dDeps dExports env appPkg aDeps) :
    (addAuthRun fs ans).1 = .ok () := by
  rw [addAuthRun_spec h]

/-- After a successful `addAuth` run the schema file holds exactly the
rewritten content built from its prior content. -/
theorem authRun_read_schema {fs : FS} {ans appName : String} {rootPkg : Json} {prior : String}
    {dbPkg : Json} {dDeps dExports : List (String × Json)} {env : String}
    {appPkg : Json} {aDeps : List (String × Json)}
    (h : authReads fs ans appName rootPkg prior dbPkg dDeps dExports env appPkg aDeps) :
    fsRead (addAuthRun fs ans).2 "packages/db/src/schema.ts"
      = some (.text (authSchemaContent prior)) := by
  rw [addAuthRun_spec h]
  show fsRead (authFinalFS fs appName ((jsonGetStr rootPkg "name").getD "undefined")
    prior dbPkg dDeps dExports env appPkg aDeps) "packages/db/src/schema.ts" = _
  have nSchemaApp : ("packages/db/src/schema.ts" : String) ≠ ("apps/" ++ appName ++ "/package.json") :=
    ne_of_head_ne rfl rfl (by decide)
  have nSchemaIdx : ("packages/db/src/schema.ts" : String) ≠ ("apps/" ++ appName ++ "/src/index.ts") :=
    ne_of_head_ne rfl rfl (by decide)
  unfold authFinalFS authFs3
  cases hm : listIsSub authEnvMarker.data env.data with
  | true =>
    rw [fsRead_write_ne _ _ nSchemaApp, fsRead_write_ne _ _ nSchemaIdx,
      fsRead_write_ne _ _ (by decide), fsRead_write_ne _ _ (by decide), fsRead_write_self]
  | false =>
    rw [fsRead_write_ne _ _ nSchemaApp, fsRead_write_ne _ _ nSchemaIdx,
      fsRead_write_ne _ _ (by decide), fsRead_write_ne _ _ (by decide),
      fsRead_write_ne _ _ (by decide), fsRead_write_self]

/-- After a successful `addAuth` run the `.env` file holds exactly
`envStep` of its prior content: the block appended when the marker was
absent, the prior content untouched when it was present. -/
theorem authRun_read_env {fs : FS} {ans appName : String} {rootPkg : Json} {prior : String}
    {dbPkg : Json} {dDeps dExports : List (String × Json)} {env : String}
    {appPkg : Json} {aDeps : List (String × Json)}
    (h : authReads fs ans appName rootPkg prior dbPkg dDeps dExports env appPkg aDeps) :
    fsRead (addAuthRun fs ans).2 "packages/db/.env" = some (.text (envStep env)) := by
  have h8 := h.2.2.2.2.2.2.2.1
  rw [addAuthRun_spec h]
  show fsRead (authFinalFS fs appName ((jsonGetStr rootPkg "name").getD "undefined")
    prior dbPkg dDeps dExports env appPkg aDeps) "packages/db/.env" = _
  have nEnvApp : ("packages/db/.env" : String) ≠ ("apps/" ++ appName ++ "/package.json") :=
    ne_of_head_ne rfl rfl (by decide)
  have nEnvIdx : ("packages/db/.env" : String) ≠ ("apps/" ++ appName ++ "/src/index.ts") :=
    ne_of_head_ne rfl rfl (by decide)
  unfold authFinalFS authFs3
  cases hm : listIsSub authEnvMarker.data env.data with
  | true =>
    rw [fsRead_write_ne _ _ nEnvApp, fsRead_write_ne _ _ nEnvIdx,
      fsRead_write_ne _ _ (by decide), fsRead_write_ne _ _ (by decide),
      fsRead_write_ne _ _ (by decide), h8]
    have : envStep env = env := by simp [envStep, hm]
    rw [this]
  | false =>
    rw [fsRead_write_ne _ _ nEnvApp, fsRead_write_ne _ _ nEnvIdx, fsRead_write_self]
    have : envStep env = env ++ authEnvBlock := by simp [envStep, hm]
    rw [this]

/-- After a successful `addAuth` run the selected app's manifest is exactly
the prior manifest with the scoped db dependency patched in. -/
theorem authRun_read_appPkg {fs : FS} {ans appName : String} {rootPkg : Json} {prior : String}
    {dbPkg : Json} {dDeps dExports : List (String × Json)} {env : String}
    {appPkg : Json} {aDeps : List (String × Json)}
    (h : authReads fs ans appName rootPkg prior dbPkg dDeps dExports env appPkg aDeps) :
    fsRead (addAuthRun fs ans).2 ("apps/" ++ appName ++ "/package.json")
      = some (.json (authAppPkgPatch ((jsonGetStr rootPkg "name").getD "undefined") appPkg aDeps)) := by
  rw [addAuthRun_spec h]
  show fsRead (authFinalFS fs appName ((jsonGetStr rootPkg "name").getD "undefined")
    prior dbPkg dDeps dExports env appPkg aDeps) ("apps/" ++ appName ++ "/package.json") = _
  unfold authFinalFS
  rw [fsRead_write_self]

/-- `takeWhile` runs through a block that wholly satisfies the predicate and
stops at the first failing element. -/
theorem takeWhile_append_stop {p : Char → Bool} (l1 l2 : List Char) (y : Char)
    (h1 : ∀ x ∈ l1, p x = true) (h2 : p y = false) :
    (l1 ++ y :: l2).takeWhile p = l1 := by
  induction l1 with
  | nil => simp [List.takeWhile_cons, h2]
  | cons x t ih =>
    have hx := h1 x (by simp)
    simp only [List.cons_append, List.takeWhile_cons, hx, if_true]
    rw [ih (fun z hz => h1 z (by simp [hz]))]

/-- No character of a basename is a slash. -/
theorem basename_no_slash (s : String) : ∀ c ∈ (basename s).data, c ≠ '/' := by
  intro c hc
  have hm : c ∈ (((s.data.reverse).dropWhile (fun c => c == '/')).takeWhile
      (fun c => c != '/')) := List.mem_reverse.mp hc
  have ht := List.mem_takeWhile_imp hm
  exact bne_iff_ne.mp ht

/-- The basename of `a ++ "/" ++ b` is `b` whenever `b` is a nonempty final
segment (contains no slash). -/
theorem basename_last_seg (a b : String) (hb : b.data ≠ [])
    (hbs : ∀ c ∈ b.data, c ≠ '/') : basename (a ++ "/" ++ b) = b := by
  unfold basename
  have hd : (a ++ "/" ++ b).data = a.data ++ '/' :: b.data := by
    rw [String.data_append, String.data_append, List.append_assoc]
    rfl
  rw [hd, List.reverse_append, List.reverse_cons, List.append_assoc]
  obtain ⟨c, t, hct⟩ : ∃ c t, b.data.reverse = c :: t := by
    cases hbr : b.data.reverse with
    | nil =>
      rw [List.reverse_eq_nil_iff] at hbr
      exact absurd hbr hb
    | cons c t => exact ⟨c, t, rfl⟩
  have hcmem : c ∈ b.data := List.mem_reverse.mp (by rw [hct]; simp)
  have hcne : (c == '/') = false := beq_eq_false_iff_ne.mpr (hbs c hcmem)
  rw [hct, List.cons_append, List.dropWhile_cons]
  simp only [hcne, Bool.false_eq_true, if_false]
  rw [← List.cons_append, ← hct, List.singleton_append,
    takeWhile_append_stop b.data.reverse a.data.reverse '/'
      (fun x hx => bne_iff_ne.mpr (hbs x (List.mem_reverse.mp hx)))
      (by decide),
    List.reverse_reverse]

/-! ### Claim theorems -/

/-- C4: after `init` for any workspace name `s`, the shared config package's
manifest (rendered at `packages/tsconfig/package.json`) is named
`@s/tsconfig` and its exports set is exactly the three base-variant keys
`./base`, `./react`, `./node`; reading the rendered workspace's root manifest
back yields scope `s`; and each member kind's tsconfig extends the
kind-appropriate exported variant — React apps `@s/tsconfig/react`, Hono apps
`@s/tsconfig/node`, generic and db packages `@s/tsconfig/base`. -/
theorem c4_shared_config_inheritance (s : String) :
    (initUnits "" s).lookup "packages/tsconfig/package.json" = some (.json (tsconfigPkgJson s))
  ∧ jsonGetStr (tsconfigPkgJson s) "name" = some ("@" ++ s ++ "/tsconfig")
  ∧ jsonGetField (tsconfigPkgJson s) "exports"
      = some (.obj [("./base", .str "./base.json"), ("./react", .str "./react.json"),
                    ("./node", .str "./node.json")])
  ∧ rootScope (fsWriteAll [] (initUnits "" s)) = some s
  ∧ jsonGetStr (reactTsconfigJson s) "extends" = some ("@" ++ s ++ "/tsconfig/react")
  ∧ jsonGetStr (honoTsconfigJson s) "extends" = some ("@" ++ s ++ "/tsconfig/node")
  ∧ jsonGetStr (packageTsconfigJson s) "extends" = some ("@" ++ s ++ "/tsconfig/base")
  ∧ jsonGetStr (dbTsconfigJson s) "extends" = some ("@" ++ s ++ "/tsconfig/base") :=
  ⟨rfl, rfl, rfl, rfl, rfl, rfl, rfl, rfl⟩

/-- C5: for every app name, rendering a React app with the Tailwind flag off
is identical to a renderer that never knew about the flag; and turning the
flag on only appends the two styling devDependency entries, adds the
`index.css` file, and inserts the css import line and the vite plugin
registration, leaving every other rendered file's content
character-for-character identical. -/
theorem c5_tailwind_flag_additive (s n : String) :
    addReactAppFiles s n false = addReactAppFilesPlain s n
  ∧ addReactAppFiles s n true =
      [("apps/" ++ n ++ "/package.json", .json (reactPackageJson s n true)),
       ("apps/" ++ n ++ "/index.html", .text (reactIndexHtml n)),
       ("apps/" ++ n ++ "/src/main.tsx", .text (reactMainTsx true)),
       ("apps/" ++ n ++ "/src/index.css", .text reactIndexCss),
       ("apps/" ++ n ++ "/src/App.tsx", .text (reactAppTsx n)),
       ("apps/" ++ n ++ "/vite.config.ts", .text (reactViteConfig true)),
       ("apps/" ++ n ++ "/tsconfig.json", .json (reactTsconfigJson s))]
  ∧ addReactAppFiles s n false =
      [("apps/" ++ n ++ "/package.json", .json (reactPackageJson s n false)),
       ("apps/" ++ n ++ "/index.html", .text (reactIndexHtml n)),
       ("apps/" ++ n ++ "/src/main.tsx", .text (reactMainTsx false)),
       ("apps/" ++ n ++ "/src/App.tsx", .text (reactAppTsx n)),
       ("apps/" ++ n ++ "/vite.config.ts", .text (reactViteConfig false)),
       ("apps/" ++ n ++ "/tsconfig.json", .json (reactTsconfigJson s))]
  ∧ reactPackageJson s n true
      = jsonSetField (reactPackageJson s n false) "devDependencies" (.obj (reactDevDeps s true))
  ∧ reactDevDeps s true
      = reactDevDeps s false
        ++ [("tailwindcss", .str "^4.1.10"), ("@tailwindcss/vite", .str "^4.1.10")]
  ∧ reactMainTsx true = mainTsxPre ++ cssImportLine ++ mainTsxPost
  ∧ reactMainTsx false = mainTsxPre ++ mainTsxPost
  ∧ reactViteConfig true = viteHead ++ viteImportTw ++ viteMid ++ vitePluginTw ++ viteTail
  ∧ reactViteConfig false = viteHead ++ viteMid ++ viteTail :=
  ⟨rfl, rfl, rfl, rfl, rfl, rfl, rfl, rfl, rfl⟩

/-- C3: the claim that running `init` twice on the same initially-empty
target succeeds both times fails on the code: evaluated at the empty
filesystem with target `proj`, the first invocation succeeds, but the second
finds the directory it just populated non-empty and exits with the
directory-not-empty error without writing (the behaviour the `init is
idempotent` test in `index.test.ts` rejects). -/
theorem c3_second_init_fails :
    (initRun [] "/work" "proj").1 = .ok ()
  ∧ initRun (initRun [] "/work" "proj").2 "/work" "proj"
      = (.error .dirNotEmpty, (initRun [] "/work" "proj").2) :=
  ⟨rfl, rfl⟩

/-- C9: whenever the user's reply does not parse (via JavaScript `parseInt`
semantics) as a 1-based index into the offered options, `prompt` silently
falls back to the first option instead of failing or re-asking. -/
theorem c9_prompt_first_fallback (answer : String) (options : List String)
    (h : ¬ ∃ i : Int, jsParseInt answer = some i ∧ 1 ≤ i ∧ i ≤ (options.length : Int)) :
    promptChoose answer options = options[0]? := by
  unfold promptChoose
  cases hp : jsParseInt answer with
  | none => rfl
  | some i =>
    show (if 0 ≤ i - 1 ∧ i - 1 < (options.length : Int) then options[(i - 1).toNat]?
      else options[0]?) = options[0]?
    rw [if_neg]
    intro hc
    exact h ⟨i, hp, by omega, by omega⟩

/-- C9 witness: the non-numeric reply `"abc"` over the framework options
returns the first option `react`. -/
theorem c9_prompt_first_fallback_witness :
    promptChoose "abc" ["react", "hono"] = some "react" := by
  have h := c9_prompt_first_fallback "abc" ["react", "hono"] (by
    rintro ⟨i, hi, _, _⟩
    rw [show jsParseInt "abc" = none from rfl] at hi
    cases hi)
  exact h

/-- C2 counterexample: with `apps/web/index.html` already holding different
content, `add app web --framework react` does not fail with `AlreadyExists` —
it succeeds and silently replaces the old content with the rendered file. -/
theorem c2_create_mode_counterexample :
    addReactAppCmd fsConflict "web" false
      = .ok (fsWriteAll fsConflict (addReactAppFiles "proj" "web" false))
  ∧ fsRead (fsWriteAll fsConflict (addReactAppFiles "proj" "web" false)) "apps/web/index.html"
      = some (.text (reactIndexHtml "web"))
  ∧ reactIndexHtml "web" ≠ "OLD" := by
  refine ⟨rfl, rfl, ?_⟩
  intro hcontra
  exact absurd hcontra (by decide)

/-- C2 (amended): the add-app / add-package operations never check the target
paths at all — whatever content a target path already holds, the operation
succeeds and afterwards the path holds the freshly rendered content
(unconditional overwrite); only `init` guards its target directory. -/
theorem c2_add_overwrites (fs : FS) (s n : String) (tw : Bool) (p : String) (d : FileData)
    (hs : rootScope fs = some s) :
    addReactAppCmd fs n tw = .ok (fsWriteAll fs (addReactAppFiles s n tw))
  ∧ addHonoAppCmd fs n = .ok (fsWriteAll fs (addHonoAppFiles s n))
  ∧ (n ≠ "db" → addPackageCmd fs n = .ok (fsWriteAll fs (addPackageFiles s n)))
  ∧ addPackageCmd fs "db" = .ok (fsWriteAll fs (addDbPackageFiles s))
  ∧ ((addReactAppFiles s n tw).reverse.lookup p = some d →
      fsRead (fsWriteAll fs (addReactAppFiles s n tw)) p = some d)
  ∧ ((addHonoAppFiles s n).reverse.lookup p = some d →
      fsRead (fsWriteAll fs (addHonoAppFiles s n)) p = some d) := by
  obtain ⟨j, hr, hg, hgd⟩ := rootScope_inv hs
  refine ⟨?_, ?_, ?_, ?_, ?_, ?_⟩
  · simp only [addReactAppCmd, hr, hgd]
  · simp only [addHonoAppCmd, hr, hgd]
  · intro hn
    simp only [addPackageCmd, if_neg hn, hr, hgd]
  · simp [addPackageCmd, hr, hgd]
  · intro hp
    rw [fsRead_writeAll, hp]
    rfl
  · intro hp
    rw [fsRead_writeAll, hp]
    rfl

/-- C2 witness: the amended overwrite behaviour evaluated on `fsConflict`,
whose `apps/web/index.html` held the content `OLD`. -/
theorem c2_add_overwrites_witness :
    addReactAppCmd fsConflict "web" false
      = .ok (fsWriteAll fsConflict (addReactAppFiles "proj" "web" false))
  ∧ fsRead (fsWriteAll fsConflict (addReactAppFiles "proj" "web" false)) "apps/web/index.html"
      = some (.text (reactIndexHtml "web")) := by
  have h := c2_add_overwrites fsConflict "proj" "web" false "apps/web/index.html"
    (.text (reactIndexHtml "web")) rfl
  exact ⟨h.1, h.2.2.2.2.1 rfl⟩

/-- C6: every precondition failure exits before any write: `init` on a
non-empty target, `add auth` without a db package, and `add auth` without an
eligible Hono app all report their error with the filesystem exactly as it
was. -/
theorem c6_precondition_no_mutation :
    (∀ (fs : FS) (cwdPath name : String), targetNonempty fs name = true →
      initRun fs cwdPath name = (.error .dirNotEmpty, fs))
  ∧ (∀ (fs : FS) (ans : String), fsExistsDir fs "packages/db" = false →
      addAuthRun fs ans = (.error .noDbPackage, fs))
  ∧ (∀ (fs : FS) (ans : String), fsExistsDir fs "packages/db" = true →
      honoAppsOf fs = [] → addAuthRun fs ans = (.error .noHonoApp, fs)) := by
  refine ⟨?_, ?_, ?_⟩
  · intro fs cwdPath name h
    simp [initRun, h]
  · intro fs ans h
    simp only [addAuthRun, h]
  · intro fs ans h1 h2
    simp only [addAuthRun, h1, addAuthSelect, h2]

/-- C6 witness: the three precondition failures evaluated at concrete
filesystems, each leaving the filesystem untouched. -/
theorem c6_precondition_no_mutation_witness :
    initRun [("proj/readme.txt", FileData.text "x")] "/w" "proj"
      = (.error .dirNotEmpty, [("proj/readme.txt", FileData.text "x")])
  ∧ addAuthRun [] "1" = (.error .noDbPackage, ([] : FS))
  ∧ addAuthRun [("packages/db/.env", FileData.text "DATABASE_URL=\n")] "1"
      = (.error .noHonoApp, [("packages/db/.env", FileData.text "DATABASE_URL=\n")]) := by
  have h := c6_precondition_no_mutation
  exact ⟨h.1 _ "/w" "proj" rfl, h.2.1 [] "1" rfl, h.2.2 _ "1" rfl rfl⟩

/-- C10: for every `init` target, the workspace root name written into the
rendered root manifest is `initPkgName` — the basename of the current working
directory when the target is `"."`, the basename of the target otherwise;
a basename never contains a slash, and for a multi-segment path it is exactly
the final path segment, never the full path. -/
theorem c10_init_name_basename (cwdPath name : String) :
    (initRun [] cwdPath name).1 = .ok ()
  ∧ fsRead (initRun [] cwdPath name).2 (initPre name ++ "package.json")
      = some (.json (rootPkgJson (initPkgName cwdPath name)))
  ∧ initPkgName cwdPath "." = basename cwdPath
  ∧ (name ≠ "." → initPkgName cwdPath name = basename name)
  ∧ (∀ c ∈ (basename name).data, c ≠ '/')
  ∧ (∀ b : String, b.data ≠ [] → (∀ c ∈ b.data, c ≠ '/') →
      basename (cwdPath ++ "/" ++ b) = b) := by
  have hg : targetNonempty [] name = false := by
    simp [targetNonempty]
  have hrun : initRun [] cwdPath name
      = (.ok (), fsWriteAll [] (initUnits (initPre name) (initPkgName cwdPath name))) := by
    simp [initRun, hg]
  have n2 : (initPre name ++ "package.json") ≠ (initPre name ++ "packages/tsconfig/package.json") :=
    appendNeLeft _ (by decide)
  have n3 : (initPre name ++ "package.json") ≠ (initPre name ++ "packages/tsconfig/base.json") :=
    appendNeLeft _ (by decide)
  have n4 : (initPre name ++ "package.json") ≠ (initPre name ++ "packages/tsconfig/react.json") :=
    appendNeLeft _ (by decide)
  have n5 : (initPre name ++ "package.json") ≠ (initPre name ++ "packages/tsconfig/node.json") :=
    appendNeLeft _ (by decide)
  have n6 : (initPre name ++ "package.json") ≠ (initPre name ++ ".gitignore") :=
    appendNeLeft _ (by decide)
  refine ⟨by rw [hrun], ?_, by simp [initPkgName], fun hn => by simp [initPkgName, hn],
    basename_no_slash name, fun b hb hbs => basename_last_seg cwdPath b hb hbs⟩
  rw [hrun]
  show fsRead (fsWriteAll [] (initUnits (initPre name) (initPkgName cwdPath name)))
      (initPre name ++ "package.json") = _
  rw [fsRead_writeAll]
  simp [initUnits, List.lookup, beq_eq_false_iff_ne.mpr n2, beq_eq_false_iff_ne.mpr n3,
    beq_eq_false_iff_ne.mpr n4, beq_eq_false_iff_ne.mpr n5, beq_eq_false_iff_ne.mpr n6]

/-- C10 witness: a nested explicit target `work/proj` yields the package name
`proj` (the final segment), and the rendered root manifest carries it. -/
theorem c10_init_name_basename_witness :
    initPkgName "/home/user" "work/proj" = "proj"
  ∧ basename ("/home/user" ++ "/" ++ "proj") = "proj"
  ∧ fsRead (initRun [] "/home/user" "work/proj").2 ("work/proj/" ++ "package.json")
      = some (.json (rootPkgJson "proj")) := by
  have h := c10_init_name_basename "/home/user" "work/proj"
  refine ⟨?_, ?_, ?_⟩
  · rw [h.2.2.2.1 (by decide)]
    rfl
  · exact h.2.2.2.2.2 "proj" (by decide) (by decide)
  · exact h.2.1

set_option maxRecDepth 100000 in
/-- C7: for every prior schema-file content, `add auth` rewrites the db
package's schema file as the required drizzle imports, then the prior content
verbatim, then a trailing block containing exactly four `export const ` table
definitions — `user`, `session`, `account` and `verification`. -/
theorem c7_auth_schema_append :
    (∀ prior : String, authSchemaContent prior = authSchemaImports ++ prior ++ authSchemaTables)
  ∧ countSub "export const ".data authSchemaTables.data = 4
  ∧ listIsSub "export const user = pgTable(\"user\"".data authSchemaTables.data = true
  ∧ listIsSub "export const session = pgTable(\"session\"".data authSchemaTables.data = true
  ∧ listIsSub "export const account = pgTable(\"account\"".data authSchemaTables.data = true
  ∧ listIsSub "export const verification = pgTable(\"verification\"".data
      authSchemaTables.data = true
  ∧ (∀ (fs : FS) (ans appName : String) (rootPkg : Json) (prior : String) (dbPkg : Json)
      (dDeps dExports : List (String × Json)) (env : String) (appPkg : Json)
      (aDeps : List (String × Json)),
      authReads fs ans appName rootPkg prior dbPkg dDeps dExports env appPkg aDeps →
      (addAuthRun fs ans).1 = .ok () ∧
      fsRead (addAuthRun fs ans).2 "packages/db/src/schema.ts"
        = some (.text (authSchemaContent prior))) := by
  refine ⟨fun prior => rfl, by decide, by decide, by decide, by decide, by decide, ?_⟩
  intro fs ans appName rootPkg prior dbPkg dDeps dExports env appPkg aDeps h
  exact ⟨authRun_ok h, authRun_read_schema h⟩

/-- C7 witness: `add auth` on the fixture workspace (empty prior schema)
succeeds and leaves the schema file holding the rewritten content. -/
theorem c7_auth_schema_append_witness :
    (addAuthRun fsAuthFixture "1").1 = .ok ()
  ∧ fsRead (addAuthRun fsAuthFixture "1").2 "packages/db/src/schema.ts"
      = some (.text (authSchemaContent "")) := by
  exact c7_auth_schema_append.2.2.2.2.2.2 fsAuthFixture "1" "api" (rootPkgJson "proj") ""
    dbPkgAuthFixture dbDepsFix dbExportsFix "DATABASE_URL=\n" (honoPackageJson "proj" "api")
    honoDepsFix ⟨rfl, rfl, rfl, rfl, rfl, rfl, rfl, rfl, rfl, rfl⟩

/-- C8: the auth environment step appends its block to the `.env` content
only when the `BETTER_AUTH_SECRET` marker is absent, so the step is
idempotent — and a successful `add auth` run leaves the `.env` file holding
exactly `envStep` of its prior content. -/
theorem c8_env_append_idempotent :
    (∀ c : String, envStep (envStep c) = envStep c)
  ∧ (∀ c : String, listIsSub authEnvMarker.data c.data = false →
      envStep c = c ++ authEnvBlock)
  ∧ (∀ c : String, listIsSub authEnvMarker.data c.data = true → envStep c = c)
  ∧ (∀ (fs : FS) (ans appName : String) (rootPkg : Json) (prior : String) (dbPkg : Json)
      (dDeps dExports : List (String × Json)) (env : String) (appPkg : Json)
      (aDeps : List (String × Json)),
      authReads fs ans appName rootPkg prior dbPkg dDeps dExports env appPkg aDeps →
      fsRead (addAuthRun fs ans).2 "packages/db/.env" = some (.text (envStep env))) := by
  refine ⟨?_, ?_, ?_, ?_⟩
  · intro c
    cases hm : listIsSub authEnvMarker.data c.data with
    | true =>
      have h1 : envStep c = c := by simp [envStep, hm]
      rw [h1, h1]
    | false =>
      have h1 : envStep c = c ++ authEnvBlock := by simp [envStep, hm]
      rw [h1]
      have h2 : listIsSub authEnvMarker.data (c.data ++ authEnvBlock.data) = true :=
        listIsSub_append_right _ _ _ (by decide)
      simp [envStep, String.data_append, h2]
  · intro c hm
    simp [envStep, hm]
  · intro c hm
    simp [envStep, hm]
  · intro fs ans appName rootPkg prior dbPkg dDeps dExports env appPkg aDeps h
    exact authRun_read_env h

/-- C8 witness: on the freshly generated `.env` content the block is
appended once, and `add auth` on the fixture leaves the file at that same
single-copy content. -/
theorem c8_env_append_idempotent_witness :
    envStep (envStep "DATABASE_URL=\n") = envStep "DATABASE_URL=\n"
  ∧ envStep "DATABASE_URL=\n" = "DATABASE_URL=\n" ++ authEnvBlock
  ∧ fsRead (addAuthRun fsAuthFixture "1").2 "packages/db/.env"
      = some (.text (envStep "DATABASE_URL=\n")) := by
  have h := c8_env_append_idempotent
  exact ⟨h.1 "DATABASE_URL=\n", h.2.1 "DATABASE_URL=\n" (by decide),
    h.2.2.2 fsAuthFixture "1" "api" (rootPkgJson "proj") "" dbPkgAuthFixture dbDepsFix
      dbExportsFix "DATABASE_URL=\n" (honoPackageJson "proj" "api") honoDepsFix
      ⟨rfl, rfl, rfl, rfl, rfl, rfl, rfl, rfl, rfl, rfl⟩⟩

/-- C1: every add operation derives its scope from the root manifest on disk
and then names the generated member `@{scope}/{name}`; every rendered
dependency on another workspace member — each member kind's devDependency on
the shared tsconfig package, and the auth-wired server app's dependency on
the db package — is exactly `@{scope}/{member}` with the workspace selector
`"*"`. -/
theorem c1_scoped_member_naming
    (fs : FS) (s n : String) (tw : Bool) (hs : rootScope fs = some s)
    (fs2 : FS) (ans appName : String) (rootPkg : Json) (prior : String)
    (dbPkg : Json) (dDeps dExports : List (String × Json)) (env : String)
    (appPkg : Json) (aDeps : List (String × Json))
    (ha : authReads fs2 ans appName rootPkg prior dbPkg dDeps dExports env appPkg aDeps)
    (hs2 : rootScope fs2 = some s) :
    addReactAppCmd fs n tw = .ok (fsWriteAll fs (addReactAppFiles s n tw))
  ∧ jsonGetStr (reactPackageJson s n tw) "name" = some ("@" ++ s ++ "/" ++ n)
  ∧ (reactDevDeps s tw).lookup ("@" ++ s ++ "/tsconfig") = some (.str "*")
  ∧ addHonoAppCmd fs n = .ok (fsWriteAll fs (addHonoAppFiles s n))
  ∧ jsonGetStr (honoPackageJson s n) "name" = some ("@" ++ s ++ "/" ++ n)
  ∧ (honoDevDeps s).lookup ("@" ++ s ++ "/tsconfig") = some (.str "*")
  ∧ (n ≠ "db" → addPackageCmd fs n = .ok (fsWriteAll fs (addPackageFiles s n)))
  ∧ jsonGetStr (packagePkgJson s n) "name" = some ("@" ++ s ++ "/" ++ n)
  ∧ (packageDevDeps s).lookup ("@" ++ s ++ "/tsconfig") = some (.str "*")
  ∧ addPackageCmd fs "db" = .ok (fsWriteAll fs (addDbPackageFiles s))
  ∧ jsonGetStr (dbPkgJson s) "name" = some ("@" ++ s ++ "/db")
  ∧ (dbDevDeps s).lookup ("@" ++ s ++ "/tsconfig") = some (.str "*")
  ∧ fsRead (addAuthRun fs2 ans).2 ("apps/" ++ appName ++ "/package.json")
      = some (.json (authAppPkgPatch s appPkg aDeps))
  ∧ jsonGetField (authAppPkgPatch s appPkg aDeps) "dependencies"
      = some (.obj (setKey aDeps ("@" ++ s ++ "/db") (.str "*")))
  ∧ (setKey aDeps ("@" ++ s ++ "/db") (.str "*")).lookup ("@" ++ s ++ "/db")
      = some (.str "*") := by
  obtain ⟨j, hr, hg, hgd⟩ := rootScope_inv hs
  have hscope2 : (jsonGetStr rootPkg "name").getD "undefined" = s := by
    have h3 := ha.2.2.1
    unfold rootScope at hs2
    simp only [h3] at hs2
    rw [hs2]
    rfl
  refine ⟨?_, rfl, ?_, ?_, rfl, ?_, ?_, rfl, ?_, ?_, rfl, ?_, ?_, ?_, lookup_setKey _ _ _⟩
  · simp only [addReactAppCmd, hr, hgd]
  · simp [reactDevDeps, lookupAppend, List.lookup]
  · simp only [addHonoAppCmd, hr, hgd]
  · simp [honoDevDeps, List.lookup]
  · intro hn
    simp only [addPackageCmd, if_neg hn, hr, hgd]
  · simp [packageDevDeps, List.lookup]
  · simp [addPackageCmd, hr, hgd]
  · simp [dbDevDeps, List.lookup]
  · have hread := authRun_read_appPkg ha
    rw [hscope2] at hread
    exact hread
  · exact jsonGetField_setField _ ha.2.2.2.2.2.2.2.2.2

/-- C1 witness: the fixture workspace `proj` — a React app is named
`@proj/web` with the tsconfig devDependency at `"*"`, and `add auth` patches
the Hono app `api` with the dependency `@proj/db` at `"*"`. -/
theorem c1_scoped_member_naming_witness :
    addReactAppCmd fsAuthFixture "web" false
      = .ok (fsWriteAll fsAuthFixture (addReactAppFiles "proj" "web" false))
  ∧ jsonGetStr (reactPackageJson "proj" "web" false) "name" = some "@proj/web"
  ∧ fsRead (addAuthRun fsAuthFixture "1").2 ("apps/" ++ "api" ++ "/package.json")
      = some (.json (authAppPkgPatch "proj" (honoPackageJson "proj" "api") honoDepsFix))
  ∧ (setKey honoDepsFix ("@" ++ "proj" ++ "/db") (.str "*")).lookup ("@" ++ "proj" ++ "/db")
      = some (.str "*") := by
  have h := c1_scoped_member_naming fsAuthFixture "proj" "web" false rfl fsAuthFixture "1" "api"
    (rootPkgJson "proj") "" dbPkgAuthFixture dbDepsFix dbExportsFix "DATABASE_URL=\n"
    (honoPackageJson "proj" "api") honoDepsFix
    ⟨rfl, rfl, rfl, rfl, rfl, rfl, rfl, rfl, rfl, rfl⟩ rfl
  exact ⟨h.1, h.2.1, h.2.2.2.2.2.2.2.2.2.2.2.2.1, h.2.2.2.2.2.2.2.2.2.2.2.2.2.2⟩
